import Mathlib

/-!
Shallow embedding of the SeaweedFS core pieces the specification's claims
talk about: the volume synchronization engine (`weed/storage/volume_sync.go`),
the master server request proxying (`weed/server/master_server.go`), and the
initialization checks of the `server` command (`runServer`).

Machine integers of the source (uint16/uint32/uint64) are modelled as `Nat`:
the embedded code only compares them for equality and order and never
overflows them.  File and network I/O is modelled by explicit oracles
(`fetch`, `stream`) returning `Except String` values, mirroring Go's
`(value, error)` results.
-/

/-- Needle offsets in the `.dat` file are stored in the index in units of
`NeedlePaddingSize = 8` bytes (`weed/storage/types`). -/
def NeedlePaddingSize : Nat := 8

/-- Sentinel size value (max uint32) marking a deleted needle in an index
record (`TombstoneFileSize` of `weed/storage/types`). -/
def TombstoneFileSize : Nat := 2 ^ 32 - 1

/-- The reserved empty needle id (`NeedleIdEmpty`): key `0` marks an unused
slot of the compact map and is never a live needle id. -/
def NeedleIdEmpty : Nat := 0

/-- One in-memory needle index entry (`needle.NeedleValue`): needle id,
offset (in 8-byte units) and size in bytes. -/
structure NeedleValue where
  Key : Nat
  Offset : Nat
  Size : Nat
deriving Repr, DecidableEq

/-- Modelled from the spec: the in-memory needle index (`needle.CompactMap`
and the btree needle map behind `LoadBtreeNeedleMap`, whose sources are not
in `src/`).  Per spec §4.2 all backends have the same contract:
`get` finds the live mapping of an id, `put` replaces any prior mapping,
`delete` removes it, `visit` enumerates live entries in unspecified order.
It is modelled as a list of live entries (association list by `Key`). -/
abbrev NeedleMapModel := List NeedleValue

/-- Modelled from the spec: `get(id) → (offset, size) | not-found`. -/
def mapGet : NeedleMapModel → Nat → Option NeedleValue
  | [], _ => none
  | nv :: rest, k => if nv.Key = k then some nv else mapGet rest k

/-- Modelled from the spec: `delete(id)` removes any live mapping of the id. -/
def mapDelete : NeedleMapModel → Nat → NeedleMapModel
  | [], _ => []
  | nv :: rest, k => if nv.Key = k then mapDelete rest k else nv :: mapDelete rest k

/-- Modelled from the spec: `put(id, offset, size)` replaces any prior
mapping of the id. -/
def mapSet (m : NeedleMapModel) (k off sz : Nat) : NeedleMapModel :=
  ⟨k, off, sz⟩ :: mapDelete m k

/-- A needle map is well formed when no id has two live entries. -/
def KeysNodup (m : NeedleMapModel) : Prop :=
  (m.map fun nv => nv.Key).Nodup

/-- One record of a remote `.idx` file as streamed by
`operation.GetVolumeIdxEntries`: `(key, offset, size)`. -/
structure IdxRecord where
  key : Nat
  offset : Nat
  size : Nat
deriving Repr, DecidableEq

/-- The per-record body of the callback in `fetchVolumeFileEntries`
(`volume_sync.go:149-157`): a record with `offset > 0` and a size that is
not the tombstone sentinel is stored in the map, any other record deletes
its key from the map. -/
def applyIdxRecord (m : NeedleMapModel) (r : IdxRecord) : NeedleMapModel :=
  if 0 < r.offset ∧ r.size ≠ TombstoneFileSize then
    mapSet m r.key r.offset r.size
  else
    mapDelete m r.key

/-- The map built by `fetchVolumeFileEntries` from the streamed remote index
records, starting from the fresh `needle.NewCompactMap()`. -/
def fetchVolumeFileEntriesMap (records : List IdxRecord) : NeedleMapModel :=
  records.foldl applyIdxRecord []

/-- The snapshot `fetchVolumeFileEntries` returns: the map of live remote
entries, the remote tail offset and the remote compact revision
(from `operation.GetVolumeSyncStatus`). -/
structure SyncSnapshot where
  map : NeedleMapModel
  tailOffset : Nat
  compactRevision : Nat
deriving Repr, DecidableEq

/-- The state of the local volume that the sync engine reads and writes:
its id, its needle index, the byte length of its `.dat` file and its
superblock compact revision. -/
structure VolumeState where
  Id : Nat
  nm : NeedleMapModel
  datLen : Nat
  compactRevision : Nat
deriving Repr, DecidableEq

/-- Modelled from the spec: `removeNeedle` calls `deleteNeedle` (not in
`src/`), which per spec §4.3 appends a tombstone needle and removes the id
from the index (`delete(id)`); only the index effect is modelled, since no
synchronized property reads the tombstone bytes in `.dat`. -/
def removeNeedle (v : VolumeState) (key : Nat) : VolumeState :=
  { v with nm := mapDelete v.nm key }

/-- Modelled from the spec: `AppendBlob` (not in `src/`) appends the bytes
at the tail of the `.dat` file and returns the byte offset at which they
were written. -/
def appendBlob (v : VolumeState) (fileContent : List Nat) : Nat × VolumeState :=
  (v.datLen, { v with datLen := v.datLen + fileContent.length })

/-- Modelled from the spec: `Compact` (not in `src/`) copies the live
needles into a side file and leaves the originals untouched; the live index
set is preserved (spec §4.3, §8 "Compaction preserves live set"). -/
def compactModel (v : VolumeState) : VolumeState := v

/-- Modelled from the spec: `commitCompact` (not in `src/`) atomically swaps
the compacted files in and bumps `compact_revision`; the live index set is
preserved (spec §4.3, §8). -/
def commitCompactModel (v : VolumeState) : VolumeState :=
  { v with compactRevision := v.compactRevision + 1 }

/-- The request `fetchNeedle` sends on the `VolumeSyncData` stream
(`volume_sync.go:194-200`); the field names, including the `VolumdId` typo,
are those of `volume_server_pb.VolumeSyncDataRequest`. -/
structure VolumeSyncDataRequest where
  VolumdId : Nat
  Revision : Nat
  Offset : Nat
  Size : Nat
  NeedleId : Nat
deriving Repr, DecidableEq

/-- `Volume.fetchNeedle` (`volume_sync.go:191-225`): issue a
`VolumeSyncData` request for one needle, receive the whole stream into
`fileContent`, then append the bytes with `AppendBlob` and only then update
the index with `Put(key, offset/NeedlePaddingSize, size)`.  The network
stream is an oracle: `Except.ok content` is a fully received stream,
`Except.error e` a failed `Recv`.  The returned triple is (the request that
was sent, the volume state after the call, the call's error result). -/
def fetchNeedle (v : VolumeState) (compactRevision : Nat) (needleValue : NeedleValue)
    (streamResult : Except String (List Nat)) :
    VolumeSyncDataRequest × VolumeState × Except String Unit :=
  ({ VolumdId := v.Id, Revision := compactRevision, Offset := needleValue.Offset,
     Size := needleValue.Size, NeedleId := needleValue.Key },
   match streamResult with
   | Except.error e =>
       (v, Except.error ("read needle " ++ Nat.repr needleValue.Key ++ ": " ++ e))
   | Except.ok fileContent =>
       let r := appendBlob v fileContent
       ({ r.2 with nm := mapSet r.2.nm needleValue.Key (r.1 / NeedlePaddingSize) needleValue.Size },
        Except.ok ()))

/-- The order `sort.Sort(ByOffset(delta))` establishes (`volume_sync.go:73-77`,
`Less` compares `Offset`): non-decreasing offsets. -/
def ByOffsetLe (a b : NeedleValue) : Prop := a.Offset ≤ b.Offset

instance : DecidableRel ByOffsetLe :=
  fun a b => inferInstanceAs (Decidable (a.Offset ≤ b.Offset))

instance : IsTotal NeedleValue ByOffsetLe :=
  ⟨fun a b => Nat.le_total a.Offset b.Offset⟩

instance : IsTrans NeedleValue ByOffsetLe :=
  ⟨fun _ _ _ h h' => Nat.le_trans h h'⟩

/-- The delta `trySynchronizing` builds (`volume_sync.go:91-119`): visit the
master map, skipping the empty key and keys present in the slave map, and
keep those entries as they are; visit the slave map, skipping the empty key
and keys present in the master map, and keep those entries with `Size := 0`;
finally sort by offset. -/
def buildDelta (masterMap slaveMap : NeedleMapModel) : List NeedleValue :=
  let fromMaster := masterMap.filter fun nv =>
    decide (nv.Key ≠ NeedleIdEmpty ∧ mapGet slaveMap nv.Key = none)
  let fromSlave := (slaveMap.filter fun nv =>
    decide (nv.Key ≠ NeedleIdEmpty ∧ mapGet masterMap nv.Key = none)).map
      fun nv => { nv with Size := 0 }
  List.insertionSort ByOffsetLe (fromMaster ++ fromSlave)

/-- The delta loop of `trySynchronizing` (`volume_sync.go:122-135`): an entry
of size `0` is removed locally with `removeNeedle` and the loop continues;
any other entry is fetched with `fetchNeedle`, and a fetch error aborts the
whole attempt, returning that error. -/
def applyDelta (compactRevision : Nat) (stream : NeedleValue → Except String (List Nat)) :
    List NeedleValue → VolumeState → VolumeState × Except String Unit
  | [], v => (v, Except.ok ())
  | needleValue :: rest, v =>
    if needleValue.Size = 0 then
      applyDelta compactRevision stream rest (removeNeedle v needleValue.Key)
    else
      match (fetchNeedle v compactRevision needleValue (stream needleValue)).2 with
      | (v1, Except.error e) => (v1, Except.error e)
      | (v1, Except.ok _) => applyDelta compactRevision stream rest v1

/-- `Volume.trySynchronizing` (`volume_sync.go:81-138`): load the local index
(the current `v.nm`), build the delta against the master map and apply it. -/
def trySynchronizing (v : VolumeState) (masterMap : NeedleMapModel)
    (compactRevision : Nat) (stream : NeedleValue → Except String (List Nat)) :
    VolumeState × Except String Unit :=
  applyDelta compactRevision stream (buildDelta masterMap v.nm) v

/-- What one iteration of the `Synchronize` retry loop did: the result of
its `fetchVolumeFileEntries` call, whether it ran `Compact`+`commitCompact`,
and the compact revision and result of its `trySynchronizing` call (both
`none` when the fetch failed and the iteration aborted). -/
structure AttemptRecord where
  fetchResult : Except String SyncSnapshot
  ranCompact : Bool
  tryRev : Option Nat
  tryResult : Option (Except String Unit)
deriving Repr

/-- The retry loop of `Volume.Synchronize` (`volume_sync.go:53-69`), with
`fuel` the remaining iterations of `for i := 0; i < 3; i++`, `i` the
attempt index, `lastRev` the `lastCompactRevision` variable and `lastErr`
the current value of the named return `err`.  Each iteration fetches the
remote snapshot (attempt `i` sees `fetch i`); a fetch error returns at
once; then, exactly when `lastRev ≠ snapshot revision ∧ lastRev ≠ 0`, the
volume is compacted and the compaction committed; then `trySynchronizing`
runs and its success returns, while its failure is retried.  Besides the Go
results the model returns the list of `AttemptRecord`s of the iterations. -/
def synchronizeAux (fetch : Nat → Except String SyncSnapshot)
    (stream : Nat → NeedleValue → Except String (List Nat)) :
    Nat → Nat → Nat → Except String Unit → VolumeState →
    VolumeState × Except String Unit × List AttemptRecord
  | 0, _, _, lastErr, v => (v, lastErr, [])
  | fuel + 1, i, lastRev, _, v =>
    match fetch i with
    | Except.error e =>
        (v, Except.error ("Failed to sync volume " ++ Nat.repr v.Id ++ " entries: " ++ e),
         [{ fetchResult := Except.error e, ranCompact := false,
            tryRev := none, tryResult := none }])
    | Except.ok snap =>
        let needCompact : Bool := (lastRev != snap.compactRevision) && (lastRev != 0)
        let v1 := if needCompact then commitCompactModel (compactModel v) else v
        match trySynchronizing v1 snap.map snap.compactRevision (stream i) with
        | (v2, Except.ok _) =>
            (v2, Except.ok (),
             [{ fetchResult := Except.ok snap, ranCompact := needCompact,
                tryRev := some snap.compactRevision, tryResult := some (Except.ok ()) }])
        | (v2, Except.error e) =>
            let rest := synchronizeAux fetch stream fuel (i + 1)
              snap.compactRevision (Except.error e) v2
            (rest.1, rest.2.1,
             { fetchResult := Except.ok snap, ranCompact := needCompact,
               tryRev := some snap.compactRevision,
               tryResult := some (Except.error e) } :: rest.2.2)

/-- `Volume.Synchronize` (`volume_sync.go:49-71`): run the retry loop with 3
iterations, `lastCompactRevision = 0` and a nil error. -/
def Synchronize (fetch : Nat → Except String SyncSnapshot)
    (stream : Nat → NeedleValue → Except String (List Nat)) (v : VolumeState) :
    VolumeState × Except String Unit × List AttemptRecord :=
  synchronizeAux fetch stream 3 0 0 (Except.ok ()) v

/-- The externally visible actions of one request through
`MasterServer.proxyToLeader` (`master_server.go:120-150`). -/
inductive ProxyEvent where
  | handleLocally
  | acquireSlot
  | proxyRequest (leader : String)
  | writeErrorResponse
  | releaseSlot
deriving Repr, DecidableEq

/-- The wrapper `MasterServer.proxyToLeader` returns: on the leader the
wrapped handler runs directly; otherwise, when a raft server exists
(`raftLeader = some s`) and reports a non-empty leader, a slot of
`bounedLeaderChan` is acquired, the request is reverse-proxied to the
leader (or, if the leader URL fails to parse, a JSON error is written), and
the deferred receive releases the slot; otherwise the request is dropped on
the floor.  `parseOk leader` models whether
`url.Parse("http://" + leader)` succeeds. -/
def proxyToLeader (topoIsLeader : Bool) (raftLeader : Option String)
    (parseOk : String → Bool) : List ProxyEvent :=
  if topoIsLeader then
    [ProxyEvent.handleLocally]
  else
    match raftLeader with
    | none => []
    | some leader =>
      if leader = "" then []
      else
        ProxyEvent.acquireSlot ::
          (if parseOk leader then
            [ProxyEvent.proxyRequest leader, ProxyEvent.releaseSlot]
          else
            [ProxyEvent.writeErrorResponse, ProxyEvent.releaseSlot])

/-- The fields of `MasterServer` that the claims depend on; `bounedLeaderChan`
(field name as in the source) holds the capacity of the bounded in-flight
channel `make(chan int, 16)`. -/
structure MasterServerModel where
  port : Nat
  metaFolder : String
  volumeSizeLimitMB : Nat
  preallocate : Nat
  pulseSeconds : Nat
  defaultReplicaPlacement : String
  bounedLeaderChan : Nat
deriving Repr, DecidableEq

/-- `NewMasterServer` (`master_server.go:45-98`): builds the server with a
bounded leader channel of capacity 16 and a preallocation size of
`volumeSizeLimitMB * 2^20` bytes when preallocation is on. -/
def newMasterServer (port : Nat) (metaFolder : String) (volumeSizeLimitMB : Nat)
    (preallocate : Bool) (pulseSeconds : Nat) (defaultReplicaPlacement : String) :
    MasterServerModel :=
  { port := port
    metaFolder := metaFolder
    volumeSizeLimitMB := volumeSizeLimitMB
    preallocate := if preallocate then volumeSizeLimitMB * (1 <<< 20) else 0
    pulseSeconds := pulseSeconds
    defaultReplicaPlacement := defaultReplicaPlacement
    bounedLeaderChan := 16 }

/-- The HTTP routes `NewMasterServer` registers (`master_server.go:80-93`)
and whether each handler is wrapped in `proxyToLeader`. -/
def masterRoutes : List (String × Bool) :=
  [("/", false), ("/ui/index.html", false),
   ("/dir/assign", true), ("/dir/lookup", true), ("/dir/status", true),
   ("/col/delete", true), ("/vol/grow", true), ("/vol/status", true),
   ("/vol/vacuum", true),
   ("/submit", false), ("/stats/health", false), ("/stats/counter", false),
   ("/stats/memory", false), ("/\x7bfileId\x7d", true)]

/-- Outcome of the initialization checks of `runServer` that can terminate
the process with `glog.Fatalf`. -/
inductive InitCheckResult where
  | fatalSizeLimit
  | fatalMetaFolder (folder : String)
  | proceed (metaFolder : String)
deriving Repr, DecidableEq

/-- Whether an init-check outcome terminated the process. -/
def InitCheckResult.isFatal : InitCheckResult → Bool
  | InitCheckResult.proceed _ => false
  | _ => true

/-- The meta folder `runServer` ends up checking: `*masterMetaFolder`, or
the first `-dir` folder when it is empty (`server.go` part_000:144-146). -/
def effectiveMetaFolder (masterMetaFolder : String) (folders : List String) : String :=
  if masterMetaFolder = "" then folders.headD "" else masterMetaFolder

/-- The fatal initialization checks of `runServer` (part_000:140-149), in
source order: `glog.Fatalf` when `masterVolumeSizeLimitMB > 256*1000`, then
default the meta folder, then `glog.Fatalf` when
`util.TestFolderWritable` fails on it; `folderWritable` is the oracle for
that filesystem test. -/
def runServerInitChecks (masterVolumeSizeLimitMB : Nat) (masterMetaFolder : String)
    (folders : List String) (folderWritable : String → Bool) : InitCheckResult :=
  if 256 * 1000 < masterVolumeSizeLimitMB then
    InitCheckResult.fatalSizeLimit
  else
    let mf := effectiveMetaFolder masterMetaFolder folders
    if folderWritable mf then InitCheckResult.proceed mf
    else InitCheckResult.fatalMetaFolder mf

/-! ### Concrete runs used to evaluate the theorems on explicit inputs -/

/-- A remote snapshot with one live needle (id 1, offset 1, size 4). -/
def c1Snap : SyncSnapshot := { map := [⟨1, 1, 4⟩], tailOffset := 100, compactRevision := 1 }

/-- A quiescent remote server: every fetch returns the same snapshot. -/
def c1Fetch : Nat → Except String SyncSnapshot := fun _ => Except.ok c1Snap

/-- A healthy data stream: every needle fetch yields four bytes. -/
def c1Stream : Nat → NeedleValue → Except String (List Nat) := fun _ _ => Except.ok [9, 9, 9, 9]

/-- A local volume holding one needle (id 2) the remote does not have. -/
def c1Volume : VolumeState := { Id := 3, nm := [⟨2, 1, 5⟩], datLen := 16, compactRevision := 0 }

/-- A remote snapshot at compact revision 0 with one live needle. -/
def c2Snap : SyncSnapshot := { map := [⟨1, 8, 4⟩], tailOffset := 0, compactRevision := 0 }

/-- A quiescent remote server at revision 0. -/
def c2Fetch : Nat → Except String SyncSnapshot := fun _ => Except.ok c2Snap

/-- A dead data stream: every needle fetch fails with error `x`. -/
def c2Stream : Nat → NeedleValue → Except String (List Nat) := fun _ _ => Except.error "x"

/-- An empty local volume. -/
def c2Volume : VolumeState := { Id := 7, nm := [], datLen := 8, compactRevision := 0 }

/-- A remote server first seen at compact revision 0, then at revision 5:
the revision changes between the first attempt and the retries. -/
def c3Fetch : Nat → Except String SyncSnapshot := fun i =>
  if i = 0 then Except.ok { map := [⟨1, 8, 4⟩], tailOffset := 0, compactRevision := 0 }
  else Except.ok { map := [⟨1, 8, 4⟩], tailOffset := 0, compactRevision := 5 }

/-- A remote server first seen at compact revision 3, then at revision 5. -/
def c3FetchW : Nat → Except String SyncSnapshot := fun i =>
  if i = 0 then Except.ok { map := [⟨1, 8, 4⟩], tailOffset := 0, compactRevision := 3 }
  else Except.ok { map := [⟨1, 8, 4⟩], tailOffset := 0, compactRevision := 5 }

/-- A dead data stream, forcing every attempt to fail and retry. -/
def c3Stream : Nat → NeedleValue → Except String (List Nat) := fun _ _ => Except.error "x"

/-- An empty local volume. -/
def c3Volume : VolumeState := { Id := 7, nm := [], datLen := 8, compactRevision := 0 }

/-- The first attempt of the `c3FetchW` run: revision 3 seen, no compaction. -/
def c3RecW0 : AttemptRecord :=
  { fetchResult := Except.ok { map := [⟨1, 8, 4⟩], tailOffset := 0, compactRevision := 3 },
    ranCompact := false, tryRev := some 3,
    tryResult := some (Except.error "read needle 1: x") }

/-- The second attempt of the `c3FetchW` run: revision changed from 3 to 5,
so the volume is compacted before the retry. -/
def c3RecW1 : AttemptRecord :=
  { fetchResult := Except.ok { map := [⟨1, 8, 4⟩], tailOffset := 0, compactRevision := 5 },
    ranCompact := true, tryRev := some 5,
    tryResult := some (Except.error "read needle 1: x") }

/-! ### Lemmas about the needle map model -/

theorem mapGet_isSome_iff {m : NeedleMapModel} {k : Nat} :
    (mapGet m k).isSome = true ↔ ∃ nv, nv ∈ m ∧ nv.Key = k := by
  induction m with
  | nil => simp [mapGet]
  | cons nv rest ih =>
    simp only [mapGet]
    by_cases h : nv.Key = k
    · simp only [if_pos h, Option.isSome_some, true_iff]
      exact ⟨nv, List.mem_cons_self nv rest, h⟩
    · rw [if_neg h, ih]
      constructor
      · rintro ⟨x, hx, hk⟩
        exact ⟨x, List.mem_cons_of_mem _ hx, hk⟩
      · rintro ⟨x, hx, hk⟩
        rcases List.mem_cons.mp hx with hx | hx
        · subst hx; exact absurd hk h
        · exact ⟨x, hx, hk⟩

theorem mapGet_eq_none_iff {m : NeedleMapModel} {k : Nat} :
    mapGet m k = none ↔ ∀ nv ∈ m, nv.Key ≠ k := by
  rw [← Option.not_isSome_iff_eq_none]
  constructor
  · intro h nv hmem hk
    exact h (mapGet_isSome_iff.mpr ⟨nv, hmem, hk⟩)
  · intro h hsome
    rcases mapGet_isSome_iff.mp hsome with ⟨nv, hmem, hk⟩
    exact h nv hmem hk

theorem mem_mapDelete {nv : NeedleValue} {m : NeedleMapModel} {k : Nat} :
    nv ∈ mapDelete m k ↔ nv ∈ m ∧ nv.Key ≠ k := by
  induction m with
  | nil => simp [mapDelete]
  | cons hd rest ih =>
    simp only [mapDelete]
    by_cases h : hd.Key = k
    · rw [if_pos h, ih]
      constructor
      · rintro ⟨hmem, hk⟩
        exact ⟨List.mem_cons_of_mem _ hmem, hk⟩
      · rintro ⟨hmem, hk⟩
        rcases List.mem_cons.mp hmem with rfl | hmem
        · exact absurd h hk
        · exact ⟨hmem, hk⟩
    · rw [if_neg h]
      simp only [List.mem_cons, ih]
      constructor
      · rintro (rfl | ⟨hmem, hk⟩)
        · exact ⟨Or.inl rfl, h⟩
        · exact ⟨Or.inr hmem, hk⟩
      · rintro ⟨rfl | hmem, hk⟩
        · exact Or.inl rfl
        · exact Or.inr ⟨hmem, hk⟩

theorem mapDelete_sublist (m : NeedleMapModel) (k : Nat) :
    List.Sublist (mapDelete m k) m := by
  induction m with
  | nil => simp [mapDelete]
  | cons hd rest ih =>
    simp only [mapDelete]
    by_cases h : hd.Key = k
    · rw [if_pos h]
      exact ih.cons hd
    · rw [if_neg h]
      exact ih.cons₂ hd

theorem mapGet_mapDelete (m : NeedleMapModel) (k k' : Nat) :
    mapGet (mapDelete m k) k' = if k' = k then none else mapGet m k' := by
  induction m with
  | nil => simp [mapDelete, mapGet]
  | cons hd rest ih =>
    simp only [mapDelete]
    by_cases h : hd.Key = k
    · rw [if_pos h, ih]
      by_cases h' : k' = k
      · rw [if_pos h', if_pos h']
      · rw [if_neg h', if_neg h']
        have hne : ¬ hd.Key = k' := fun hh => h' (hh.symm.trans h)
        simp only [mapGet, if_neg hne]
    · rw [if_neg h]
      by_cases h2 : hd.Key = k'
      · have h' : ¬ k' = k := fun hh => h (h2.trans hh)
        simp only [mapGet, if_pos h2, if_neg h']
      · simp only [mapGet, if_neg h2, ih]

theorem mapGet_mapSet (m : NeedleMapModel) (k off sz k' : Nat) :
    mapGet (mapSet m k off sz) k' =
      if k' = k then some ⟨k, off, sz⟩ else mapGet m k' := by
  simp only [mapSet, mapGet]
  by_cases h : k' = k
  · rw [if_pos h.symm, if_pos h]
  · rw [if_neg (fun hh => h hh.symm), if_neg h, mapGet_mapDelete, if_neg h]

theorem KeysNodup_mapDelete {m : NeedleMapModel} (k : Nat) (h : KeysNodup m) :
    KeysNodup (mapDelete m k) :=
  List.Nodup.sublist ((mapDelete_sublist m k).map fun nv => nv.Key) h

theorem KeysNodup_mapSet {m : NeedleMapModel} (k off sz : Nat) (h : KeysNodup m) :
    KeysNodup (mapSet m k off sz) := by
  unfold KeysNodup mapSet
  rw [List.map_cons, List.nodup_cons]
  refine ⟨?_, KeysNodup_mapDelete k h⟩
  intro hmem
  rcases List.mem_map.mp hmem with ⟨nv, hnv, hkey⟩
  exact (mem_mapDelete.mp hnv).2 hkey

/-! ### Lemmas about the delta construction and application -/

theorem mem_buildDelta {M S : NeedleMapModel} {nv : NeedleValue} :
    nv ∈ buildDelta M S ↔
      (nv.Key ≠ NeedleIdEmpty ∧ mapGet S nv.Key = none ∧ nv ∈ M) ∨
      (∃ nv0, nv0 ∈ S ∧ nv0.Key ≠ NeedleIdEmpty ∧ mapGet M nv0.Key = none ∧
        nv = { nv0 with Size := 0 }) := by
  unfold buildDelta
  simp only [List.mem_insertionSort, List.mem_append, List.mem_filter, List.mem_map,
    decide_eq_true_eq]
  constructor
  · rintro (⟨hm, hne, hget⟩ | ⟨nv0, ⟨hs, hne, hget⟩, rfl⟩)
    · exact Or.inl ⟨hne, hget, hm⟩
    · exact Or.inr ⟨nv0, hs, hne, hget, rfl⟩
  · rintro (⟨hne, hget, hm⟩ | ⟨nv0, hs, hne, hget, rfl⟩)
    · exact Or.inl ⟨hm, hne, hget⟩
    · exact Or.inr ⟨nv0, ⟨hs, hne, hget⟩, rfl⟩

theorem keys_buildDelta_ne_empty {M S : NeedleMapModel} {nv : NeedleValue}
    (h : nv ∈ buildDelta M S) : nv.Key ≠ NeedleIdEmpty := by
  rcases mem_buildDelta.mp h with ⟨hne, _, _⟩ | ⟨nv0, _, hne, _, rfl⟩
  · exact hne
  · exact hne

theorem keys_buildDelta_nodup {M S : NeedleMapModel}
    (hM : KeysNodup M) (hS : KeysNodup S) : KeysNodup (buildDelta M S) := by
  unfold KeysNodup buildDelta
  apply List.Perm.nodup
    (((List.perm_insertionSort ByOffsetLe _).map fun nv => nv.Key).symm)
  rw [List.map_append, List.nodup_append]
  have hcomp : ((fun nv : NeedleValue => nv.Key) ∘ fun nv => { nv with Size := 0 })
      = fun nv : NeedleValue => nv.Key := rfl
  refine ⟨?_, ?_, ?_⟩
  · exact List.Nodup.sublist ((List.filter_sublist _).map _) hM
  · rw [List.map_map, hcomp]
    exact List.Nodup.sublist ((List.filter_sublist _).map _) hS
  · intro k hk1 hk2
    rcases List.mem_map.mp hk1 with ⟨nvM, hnvM, hkeyM⟩
    rcases List.mem_filter.mp hnvM with ⟨_, hpM⟩
    rcases (decide_eq_true_eq).mp hpM with ⟨_, hgetS⟩
    rw [List.map_map, hcomp] at hk2
    rcases List.mem_map.mp hk2 with ⟨nvS, hnvS, hkeyS⟩
    rcases List.mem_filter.mp hnvS with ⟨hmemS, _⟩
    have : (mapGet S k).isSome = true :=
      mapGet_isSome_iff.mpr ⟨nvS, hmemS, hkeyS⟩
    rw [← hkeyM, hgetS] at this
    exact Bool.noConfusion this

theorem applyDelta_get_of_forall_ne (compactRevision : Nat)
    (stream : NeedleValue → Except String (List Nat))
    (delta : List NeedleValue) (v : VolumeState) (k : Nat)
    (h : ∀ nv ∈ delta, nv.Key ≠ k) :
    mapGet (applyDelta compactRevision stream delta v).1.nm k = mapGet v.nm k := by
  induction delta generalizing v with
  | nil => rfl
  | cons hd rest ih =>
    have hk : hd.Key ≠ k := h hd (List.mem_cons_self hd rest)
    have hrest : ∀ x ∈ rest, x.Key ≠ k := fun x hx => h x (List.mem_cons_of_mem _ hx)
    simp only [applyDelta]
    by_cases hsz : hd.Size = 0
    · rw [if_pos hsz, ih _ hrest]
      simp only [removeNeedle]
      rw [mapGet_mapDelete, if_neg (fun hh : k = hd.Key => hk hh.symm)]
    · rw [if_neg hsz]
      rcases hs : stream hd with e | content
      · simp only [fetchNeedle, hs]
      · simp only [fetchNeedle, hs, appendBlob]
        rw [ih _ hrest]
        simp only
        rw [mapGet_mapSet, if_neg (fun hh : k = hd.Key => hk hh.symm)]

theorem applyDelta_ok_get_of_mem (compactRevision : Nat)
    (stream : NeedleValue → Except String (List Nat))
    (delta : List NeedleValue) (v : VolumeState) (nv : NeedleValue)
    (hnodup : (delta.map fun x => x.Key).Nodup)
    (hmem : nv ∈ delta)
    (hok : (applyDelta compactRevision stream delta v).2 = Except.ok ()) :
    ((mapGet (applyDelta compactRevision stream delta v).1.nm nv.Key).isSome = true
      ↔ nv.Size ≠ 0) := by
  induction delta generalizing v with
  | nil => cases hmem
  | cons hd rest ih =>
    rw [List.map_cons, List.nodup_cons] at hnodup
    rcases List.mem_cons.mp hmem with rfl | hmem'
    · have hrest : ∀ x ∈ rest, x.Key ≠ nv.Key := by
        intro x hx hkey
        exact hnodup.1 (hkey ▸ List.mem_map_of_mem _ hx)
      by_cases hsz : nv.Size = 0
      · simp only [applyDelta, if_pos hsz] at hok ⊢
        rw [applyDelta_get_of_forall_ne _ _ _ _ _ hrest]
        simp only [removeNeedle]
        rw [mapGet_mapDelete, if_pos rfl]
        simp [hsz]
      · simp only [applyDelta, if_neg hsz] at hok ⊢
        rcases hs : stream nv with e | content
        · rw [hs] at hok
          simp only [fetchNeedle] at hok
          exact absurd hok (by simp)
        · rw [hs] at hok
          simp only [fetchNeedle, appendBlob] at hok ⊢
          rw [applyDelta_get_of_forall_ne _ _ _ _ _ hrest]
          simp only
          rw [mapGet_mapSet, if_pos rfl]
          simp [hsz]
    · have hhdk : hd.Key ≠ nv.Key := by
        intro hkey
        exact hnodup.1 (hkey ▸ List.mem_map_of_mem _ hmem')
      by_cases hsz : hd.Size = 0
      · simp only [applyDelta, if_pos hsz] at hok ⊢
        exact ih _ hnodup.2 hmem' hok
      · simp only [applyDelta, if_neg hsz] at hok ⊢
        rcases hs : stream hd with e | content
        · rw [hs] at hok
          simp only [fetchNeedle] at hok
          exact absurd hok (by simp)
        · rw [hs] at hok
          simp only [fetchNeedle, appendBlob] at hok ⊢
          exact ih _ hnodup.2 hmem' hok

theorem applyDelta_preserves (compactRevision : Nat)
    (stream : NeedleValue → Except String (List Nat))
    (delta : List NeedleValue) (v : VolumeState)
    (hne : ∀ nv ∈ delta, nv.Key ≠ NeedleIdEmpty)
    (hnodup : KeysNodup v.nm) (h0 : mapGet v.nm NeedleIdEmpty = none) :
    KeysNodup (applyDelta compactRevision stream delta v).1.nm ∧
      mapGet (applyDelta compactRevision stream delta v).1.nm NeedleIdEmpty = none := by
  induction delta generalizing v with
  | nil => exact ⟨hnodup, h0⟩
  | cons hd rest ih =>
    have hhd : hd.Key ≠ NeedleIdEmpty := hne hd (List.mem_cons_self hd rest)
    have hrest : ∀ x ∈ rest, x.Key ≠ NeedleIdEmpty :=
      fun x hx => hne x (List.mem_cons_of_mem _ hx)
    simp only [applyDelta]
    by_cases hsz : hd.Size = 0
    · rw [if_pos hsz]
      refine ih _ hrest ?_ ?_
      · exact KeysNodup_mapDelete _ hnodup
      · simp [removeNeedle, mapGet_mapDelete, h0]
    · rw [if_neg hsz]
      rcases hs : stream hd with e | content
      · simp only [fetchNeedle, hs]
        exact ⟨hnodup, h0⟩
      · simp only [fetchNeedle, hs, appendBlob]
        refine ih _ hrest ?_ ?_
        · exact KeysNodup_mapSet _ _ _ hnodup
        · simp only
          rw [mapGet_mapSet, if_neg (fun hh : NeedleIdEmpty = hd.Key => hhd hh.symm)]
          exact h0

/-! ### Lemmas about one synchronization attempt -/

theorem trySynchronizing_preserves (v : VolumeState) (M : NeedleMapModel)
    (compactRevision : Nat) (stream : NeedleValue → Except String (List Nat))
    (hLnodup : KeysNodup v.nm) (hL0 : mapGet v.nm NeedleIdEmpty = none) :
    KeysNodup (trySynchronizing v M compactRevision stream).1.nm ∧
      mapGet (trySynchronizing v M compactRevision stream).1.nm NeedleIdEmpty = none :=
  applyDelta_preserves compactRevision stream (buildDelta M v.nm) v
    (fun _ h => keys_buildDelta_ne_empty h) hLnodup hL0

theorem trySynchronizing_ok_liveSet (v : VolumeState) (M : NeedleMapModel)
    (compactRevision : Nat) (stream : NeedleValue → Except String (List Nat))
    (hMnodup : KeysNodup M) (hLnodup : KeysNodup v.nm)
    (hM0 : mapGet M NeedleIdEmpty = none) (hL0 : mapGet v.nm NeedleIdEmpty = none)
    (hMsz : ∀ nv ∈ M, nv.Size ≠ 0)
    (hok : (trySynchronizing v M compactRevision stream).2 = Except.ok ()) (k : Nat) :
    (mapGet (trySynchronizing v M compactRevision stream).1.nm k).isSome
      = (mapGet M k).isSome := by
  have hDnodup : ((buildDelta M v.nm).map fun x => x.Key).Nodup :=
    keys_buildDelta_nodup hMnodup hLnodup
  unfold trySynchronizing at hok ⊢
  by_cases hMk : (mapGet M k).isSome = true
  · have hk0 : k ≠ NeedleIdEmpty := by
      intro h
      rw [h, hM0] at hMk
      exact Bool.noConfusion hMk
    rcases mapGet_isSome_iff.mp hMk with ⟨nvM, hmemM, hkeyM⟩
    by_cases hLk : (mapGet v.nm k).isSome = true
    · -- present on both sides: the key is skipped and stays live locally
      have hnone : ∀ d ∈ buildDelta M v.nm, d.Key ≠ k := by
        intro d hd hdk
        rcases mem_buildDelta.mp hd with ⟨_, hget, _⟩ | ⟨nv0, hs, _, hget, rfl⟩
        · rw [hdk] at hget
          rw [hget] at hLk
          exact Bool.noConfusion hLk
        · have : nv0.Key = k := hdk
          rw [this] at hget
          rw [hget] at hMk
          exact Bool.noConfusion hMk
      rw [applyDelta_get_of_forall_ne _ _ _ _ _ hnone]
      rw [hMk, hLk]
    · -- only on the master side: the entry is fetched
      have hgetL : mapGet v.nm k = none := Option.not_isSome_iff_eq_none.mp hLk
      have hmemD : nvM ∈ buildDelta M v.nm := by
        apply mem_buildDelta.mpr
        exact Or.inl ⟨hkeyM ▸ hk0, hkeyM ▸ hgetL, hmemM⟩
      have hiff := applyDelta_ok_get_of_mem compactRevision stream _ v nvM hDnodup hmemD hok
      rw [hkeyM] at hiff
      rw [hMk]
      exact hiff.mpr (hMsz nvM hmemM)
  · have hMnone : mapGet M k = none := Option.not_isSome_iff_eq_none.mp hMk
    by_cases hLk : (mapGet v.nm k).isSome = true
    · -- only on the slave side: a size-0 delta entry removes it
      have hk0 : k ≠ NeedleIdEmpty := by
        intro h
        rw [h, hL0] at hLk
        exact Bool.noConfusion hLk
      rcases mapGet_isSome_iff.mp hLk with ⟨nvS, hmemS, hkeyS⟩
      have hmemD : ({ nvS with Size := 0 } : NeedleValue) ∈ buildDelta M v.nm := by
        apply mem_buildDelta.mpr
        exact Or.inr ⟨nvS, hmemS, hkeyS ▸ hk0, hkeyS ▸ hMnone, rfl⟩
      have hiff := applyDelta_ok_get_of_mem compactRevision stream _ v
        ({ nvS with Size := 0 }) hDnodup hmemD hok
      have hkey' : ({ nvS with Size := 0 } : NeedleValue).Key = k := hkeyS
      rw [hkey'] at hiff
      have hfalse : ¬ ((mapGet (applyDelta compactRevision stream
          (buildDelta M v.nm) v).1.nm k).isSome = true) := by
        intro hsome
        exact (hiff.mp hsome) rfl
      rw [Bool.not_eq_true] at hfalse
      rw [hfalse, hMnone]
      rfl
    · -- on neither side: nothing in the delta touches the key
      have hgetL : mapGet v.nm k = none := Option.not_isSome_iff_eq_none.mp hLk
      have hnone : ∀ d ∈ buildDelta M v.nm, d.Key ≠ k := by
        intro d hd hdk
        rcases mem_buildDelta.mp hd with ⟨_, _, hm⟩ | ⟨nv0, hs, _, _, rfl⟩
        · rw [← hdk] at hMnone
          rw [mapGet_eq_none_iff] at hMnone
          exact hMnone d hm rfl
        · have : nv0.Key = k := hdk
          rw [mapGet_eq_none_iff] at hgetL
          exact hgetL nv0 hs this
      rw [applyDelta_get_of_forall_ne _ _ _ _ _ hnone]
      rw [hgetL, hMnone]

/-! ### Lemmas about the Synchronize retry loop -/

theorem synchronizeAux_ok_liveSet (fetch : Nat → Except String SyncSnapshot)
    (stream : Nat → NeedleValue → Except String (List Nat)) (snap : SyncSnapshot)
    (hq : ∀ i, fetch i = Except.ok snap)
    (hMnodup : KeysNodup snap.map) (hM0 : mapGet snap.map NeedleIdEmpty = none)
    (hMsz : ∀ nv ∈ snap.map, nv.Size ≠ 0) :
    ∀ (fuel i lastRev : Nat) (e0 : Except String Unit) (v : VolumeState),
      KeysNodup v.nm → mapGet v.nm NeedleIdEmpty = none →
      (e0 = Except.ok () → fuel ≠ 0) →
      (synchronizeAux fetch stream fuel i lastRev e0 v).2.1 = Except.ok () →
      ∀ k, (mapGet (synchronizeAux fetch stream fuel i lastRev e0 v).1.nm k).isSome
          = (mapGet snap.map k).isSome := by
  intro fuel
  induction fuel with
  | zero =>
    intro i lastRev e0 v _ _ he hok k
    simp only [synchronizeAux] at hok
    exact absurd rfl (he hok)
  | succ fuel ih =>
    intro i lastRev e0 v hLn hL0 _ hok k
    cases hc : (lastRev != snap.compactRevision) && (lastRev != 0) with
    | false =>
      simp only [synchronizeAux, hq i, hc, Bool.false_eq_true, if_false] at hok ⊢
      rcases htry : trySynchronizing v snap.map snap.compactRevision (stream i) with ⟨v2, res⟩
      rw [htry] at hok
      cases res with
      | error e =>
        simp only at hok ⊢
        have hpres := trySynchronizing_preserves v snap.map snap.compactRevision
          (stream i) hLn hL0
        rw [htry] at hpres
        exact ih (i + 1) snap.compactRevision (Except.error e) v2 hpres.1 hpres.2
          (fun h => Except.noConfusion h) hok k
      | ok u =>
        simp only at hok ⊢
        have hres := trySynchronizing_ok_liveSet v snap.map snap.compactRevision (stream i)
          hMnodup hLn hM0 hL0 hMsz (by rw [htry]) k
        rw [htry] at hres
        exact hres
    | true =>
      simp only [synchronizeAux, hq i, hc, if_true] at hok ⊢
      rcases htry : trySynchronizing (commitCompactModel (compactModel v)) snap.map
        snap.compactRevision (stream i) with ⟨v2, res⟩
      rw [htry] at hok
      cases res with
      | error e =>
        simp only at hok ⊢
        have hpres := trySynchronizing_preserves (commitCompactModel (compactModel v))
          snap.map snap.compactRevision (stream i) hLn hL0
        rw [htry] at hpres
        exact ih (i + 1) snap.compactRevision (Except.error e) v2 hpres.1 hpres.2
          (fun h => Except.noConfusion h) hok k
      | ok u =>
        simp only at hok ⊢
        have hres := trySynchronizing_ok_liveSet (commitCompactModel (compactModel v))
          snap.map snap.compactRevision (stream i) hMnodup hLn hM0 hL0 hMsz
          (by rw [htry]) k
        rw [htry] at hres
        exact hres


theorem synchronizeAux_records_length (fetch : Nat → Except String SyncSnapshot)
    (stream : Nat → NeedleValue → Except String (List Nat)) :
    ∀ (fuel i lastRev : Nat) (e0 : Except String Unit) (v : VolumeState),
      (synchronizeAux fetch stream fuel i lastRev e0 v).2.2.length ≤ fuel := by
  intro fuel
  induction fuel with
  | zero =>
    intro i lastRev e0 v
    simp [synchronizeAux]
  | succ fuel ih =>
    intro i lastRev e0 v
    simp only [synchronizeAux]
    split
    · simp
    · split
      · simp
      · simp only [List.length_cons]
        exact Nat.succ_le_succ (ih _ _ _ _)

theorem synchronizeAux_records_fetch (fetch : Nat → Except String SyncSnapshot)
    (stream : Nat → NeedleValue → Except String (List Nat)) :
    ∀ (fuel i lastRev : Nat) (e0 : Except String Unit) (v : VolumeState) (j : Nat)
      (rec : AttemptRecord),
      (synchronizeAux fetch stream fuel i lastRev e0 v).2.2[j]? = some rec →
      rec.fetchResult = fetch (i + j) ∧
        ∀ snap, fetch (i + j) = Except.ok snap → rec.tryRev = some snap.compactRevision := by
  intro fuel
  induction fuel with
  | zero =>
    intro i lastRev e0 v j rec h
    simp [synchronizeAux] at h
  | succ fuel ih =>
    intro i lastRev e0 v j rec h
    simp only [synchronizeAux] at h
    split at h
    · rename_i efet hfet
      simp only at h
      cases j with
      | zero =>
        rw [List.getElem?_cons_zero] at h
        rcases Option.some.inj h with rfl
        refine ⟨by rw [Nat.add_zero, hfet], ?_⟩
        intro snap hsnap
        rw [Nat.add_zero, hfet] at hsnap
        exact Except.noConfusion hsnap
      | succ j =>
        simp at h
    · rename_i snap hfet
      split at h
      · rename_i v2 u htry
        simp only at h
        cases j with
        | zero =>
          rw [List.getElem?_cons_zero] at h
          rcases Option.some.inj h with rfl
          refine ⟨by rw [Nat.add_zero, hfet], ?_⟩
          intro snap' hsnap
          rw [Nat.add_zero, hfet] at hsnap
          rcases Except.ok.inj hsnap with rfl
          rfl
        | succ j =>
          simp at h
      · rename_i v2 etry htry
        simp only at h
        cases j with
        | zero =>
          rw [List.getElem?_cons_zero] at h
          rcases Option.some.inj h with rfl
          refine ⟨by rw [Nat.add_zero, hfet], ?_⟩
          intro snap' hsnap
          rw [Nat.add_zero, hfet] at hsnap
          rcases Except.ok.inj hsnap with rfl
          rfl
        | succ j =>
          rw [List.getElem?_cons_succ] at h
          have hrec := ih (i + 1) snap.compactRevision (Except.error etry) v2 j rec h
          have harith : i + 1 + j = i + (j + 1) := by omega
          rw [harith] at hrec
          exact hrec

theorem synchronizeAux_last_error (fetch : Nat → Except String SyncSnapshot)
    (stream : Nat → NeedleValue → Except String (List Nat)) :
    ∀ (fuel i lastRev : Nat) (e0 : Except String Unit) (v : VolumeState) (j : Nat)
      (rec : AttemptRecord) (e : String),
      (synchronizeAux fetch stream fuel i lastRev e0 v).2.2[j]? = some rec →
      j + 1 = fuel →
      rec.tryResult = some (Except.error e) →
      (synchronizeAux fetch stream fuel i lastRev e0 v).2.1 = Except.error e := by
  intro fuel
  induction fuel with
  | zero =>
    intro i lastRev e0 v j rec e _ hj _
    exact absurd hj (by omega)
  | succ fuel ih =>
    intro i lastRev e0 v j rec e h hj htr
    simp only [synchronizeAux] at h ⊢
    split at h
    · rename_i efet hfet
      simp only at h
      cases j with
      | zero =>
        rw [List.getElem?_cons_zero] at h
        rcases Option.some.inj h with rfl
        exact absurd htr (by simp)
      | succ j =>
        simp at h
    · rename_i snap hfet
      split at h
      · rename_i v2 u htry
        simp only at h ⊢
        cases j with
        | zero =>
          rw [List.getElem?_cons_zero] at h
          rcases Option.some.inj h with rfl
          exact absurd htr (by simp)
        | succ j =>
          simp at h
      · rename_i v2 etry htry
        simp only at h ⊢
        cases j with
        | zero =>
          have hfuel : fuel = 0 := by omega
          subst hfuel
          rw [List.getElem?_cons_zero] at h
          rcases Option.some.inj h with rfl
          simp only [Option.some.injEq, Except.error.injEq] at htr
          simp only [synchronizeAux]
          rw [htr]
        | succ j =>
          rw [List.getElem?_cons_succ] at h
          exact ih (i + 1) snap.compactRevision (Except.error etry) v2 j rec e h
            (by omega) htr

theorem synchronizeAux_head_ranCompact (fetch : Nat → Except String SyncSnapshot)
    (stream : Nat → NeedleValue → Except String (List Nat))
    (fuel i lastRev : Nat) (e0 : Except String Unit) (v : VolumeState)
    (rec : AttemptRecord) (snap : SyncSnapshot)
    (h : (synchronizeAux fetch stream fuel i lastRev e0 v).2.2[0]? = some rec)
    (hfr : rec.fetchResult = Except.ok snap) :
    rec.ranCompact = ((lastRev != snap.compactRevision) && (lastRev != 0)) := by
  cases fuel with
  | zero => simp [synchronizeAux] at h
  | succ fuel =>
    simp only [synchronizeAux] at h
    split at h
    · rename_i efet hfet
      simp only at h
      rw [List.getElem?_cons_zero] at h
      rcases Option.some.inj h with rfl
      exact absurd hfr (by simp)
    · rename_i snap' hfet
      split at h
      · rename_i v2 u htry
        simp only at h
        rw [List.getElem?_cons_zero] at h
        rcases Option.some.inj h with rfl
        simp only [Except.ok.injEq] at hfr
        rw [← hfr]
      · rename_i v2 etry htry
        simp only at h
        rw [List.getElem?_cons_zero] at h
        rcases Option.some.inj h with rfl
        simp only [Except.ok.injEq] at hfr
        rw [← hfr]

theorem synchronizeAux_head_lastRevZero (fetch : Nat → Except String SyncSnapshot)
    (stream : Nat → NeedleValue → Except String (List Nat))
    (fuel i : Nat) (e0 : Except String Unit) (v : VolumeState) (rec : AttemptRecord)
    (h : (synchronizeAux fetch stream fuel i 0 e0 v).2.2[0]? = some rec) :
    rec.ranCompact = false := by
  cases fuel with
  | zero => simp [synchronizeAux] at h
  | succ fuel =>
    simp only [synchronizeAux] at h
    split at h
    · rename_i efet hfet
      simp only at h
      rw [List.getElem?_cons_zero] at h
      rcases Option.some.inj h with rfl
      rfl
    · rename_i snap hfet
      split at h
      · rename_i v2 u htry
        simp only at h
        rw [List.getElem?_cons_zero] at h
        rcases Option.some.inj h with rfl
        simp
      · rename_i v2 etry htry
        simp only at h
        rw [List.getElem?_cons_zero] at h
        rcases Option.some.inj h with rfl
        simp

theorem synchronizeAux_chain_ranCompact (fetch : Nat → Except String SyncSnapshot)
    (stream : Nat → NeedleValue → Except String (List Nat)) :
    ∀ (fuel i lastRev : Nat) (e0 : Except String Unit) (v : VolumeState) (j : Nat)
      (rec rec' : AttemptRecord) (r : Nat) (snap : SyncSnapshot),
      (synchronizeAux fetch stream fuel i lastRev e0 v).2.2[j]? = some rec →
      (synchronizeAux fetch stream fuel i lastRev e0 v).2.2[j + 1]? = some rec' →
      rec.tryRev = some r →
      rec'.fetchResult = Except.ok snap →
      rec'.ranCompact = ((r != snap.compactRevision) && (r != 0)) := by
  intro fuel
  induction fuel with
  | zero =>
    intro i lastRev e0 v j rec rec' r snap h _ _ _
    simp [synchronizeAux] at h
  | succ fuel ih =>
    intro i lastRev e0 v j rec rec' r snap h h' htr hfr
    simp only [synchronizeAux] at h h'
    revert h'
    split at h
    · rename_i efet hfet
      intro h'
      simp only at h h'
      simp at h'
    · rename_i snap' hfet
      split at h
      · rename_i v2 u htry
        intro h'
        simp only at h h'
        simp at h'
      · rename_i v2 etry htry
        intro h'
        simp only at h h'
        cases j with
        | zero =>
          rw [List.getElem?_cons_zero] at h
          rcases Option.some.inj h with rfl
          simp only [Option.some.injEq] at htr
          rw [List.getElem?_cons_succ] at h'
          have hhead := synchronizeAux_head_ranCompact fetch stream fuel (i + 1)
            snap'.compactRevision (Except.error etry) v2 rec' snap h' hfr
          rw [htr] at hhead
          exact hhead
        | succ j =>
          rw [List.getElem?_cons_succ] at h
          rw [List.getElem?_cons_succ] at h'
          exact ih (i + 1) snap'.compactRevision (Except.error etry) v2 j rec rec' r snap
            h h' htr hfr

/-! ### Lemma for the remote index map -/

theorem fetchVolumeFileEntriesMap_live_aux :
    ∀ (records : List IdxRecord) (m : NeedleMapModel),
      (∀ nv ∈ m, 0 < nv.Offset ∧ nv.Size ≠ TombstoneFileSize) →
      ∀ nv ∈ records.foldl applyIdxRecord m, 0 < nv.Offset ∧ nv.Size ≠ TombstoneFileSize := by
  intro records
  induction records with
  | nil =>
    intro m hm nv h
    exact hm nv h
  | cons r rest ih =>
    intro m hm nv h
    simp only [List.foldl_cons] at h
    refine ih _ ?_ nv h
    intro x hx
    unfold applyIdxRecord at hx
    by_cases hc : 0 < r.offset ∧ r.size ≠ TombstoneFileSize
    · rw [if_pos hc] at hx
      rcases List.mem_cons.mp hx with rfl | hx'
      · exact hc
      · exact hm x (mem_mapDelete.mp hx').1
    · rw [if_neg hc] at hx
      exact hm x (mem_mapDelete.mp hx).1

/-! ### The claims -/

/-- C1: if `Synchronize(L, R)` returns without error while the remote server
is quiescent (every fetch returns the same snapshot), then the set of live
needle ids of the local index equals the set of live needle ids of the
remote index.  The side conditions say that both indexes are well formed
(no duplicate ids, the reserved empty id 0 is not live) and that every live
remote entry has a nonzero size (a zero-size needle is a tombstone per the
spec, so a live index never maps an id to size 0). -/
theorem c1_synchronize_convergence
    (fetch : Nat → Except String SyncSnapshot)
    (stream : Nat → NeedleValue → Except String (List Nat))
    (v : VolumeState) (snap : SyncSnapshot)
    (hquiescent : ∀ i, fetch i = Except.ok snap)
    (hMnodup : KeysNodup snap.map) (hLnodup : KeysNodup v.nm)
    (hM0 : mapGet snap.map NeedleIdEmpty = none) (hL0 : mapGet v.nm NeedleIdEmpty = none)
    (hMsz : ∀ nv ∈ snap.map, nv.Size ≠ 0)
    (hok : (Synchronize fetch stream v).2.1 = Except.ok ()) :
    ∀ k, (mapGet (Synchronize fetch stream v).1.nm k).isSome = (mapGet snap.map k).isSome :=
  synchronizeAux_ok_liveSet fetch stream snap hquiescent hMnodup hM0 hMsz 3 0 0
    (Except.ok ()) v hLnodup hL0 (fun _ => by decide) hok

/-- Witness for C1: a concrete successful synchronization of `c1Volume`
against the quiescent snapshot `c1Snap`; needle id 2 (live only locally
before the sync) ends up equally absent on both sides. -/
theorem c1_synchronize_convergence_witness :
    (mapGet (Synchronize c1Fetch c1Stream c1Volume).1.nm 2).isSome
      = (mapGet c1Snap.map 2).isSome :=
  c1_synchronize_convergence c1Fetch c1Stream c1Volume c1Snap (fun _ => rfl)
    (by unfold KeysNodup; decide) (by unfold KeysNodup; decide)
    (by decide) (by decide) (by decide) rfl 2

/-- C2: `Synchronize` makes at most 3 attempts; every attempt `j` has its own
fresh `fetchVolumeFileEntries` call (its record's `fetchResult` is exactly
`fetch j`, and the revision its `trySynchronizing` runs with is the one of
that freshly fetched snapshot); and when the third attempt's
`trySynchronizing` fails, that error is returned. -/
theorem c2_three_attempts_refetch_and_error
    (fetch : Nat → Except String SyncSnapshot)
    (stream : Nat → NeedleValue → Except String (List Nat)) (v : VolumeState) :
    (Synchronize fetch stream v).2.2.length ≤ 3 ∧
    (∀ j rec, (Synchronize fetch stream v).2.2[j]? = some rec →
      rec.fetchResult = fetch j ∧
        ∀ snap, fetch j = Except.ok snap → rec.tryRev = some snap.compactRevision) ∧
    (∀ rec e, (Synchronize fetch stream v).2.2[2]? = some rec →
      rec.tryResult = some (Except.error e) →
      (Synchronize fetch stream v).2.1 = Except.error e) := by
  refine ⟨synchronizeAux_records_length fetch stream 3 0 0 (Except.ok ()) v, ?_, ?_⟩
  · intro j rec h
    have hrec := synchronizeAux_records_fetch fetch stream 3 0 0 (Except.ok ()) v j rec h
    rwa [Nat.zero_add] at hrec
  · intro rec e h htr
    exact synchronizeAux_last_error fetch stream 3 0 0 (Except.ok ()) v 2 rec e h rfl htr

/-- Witness for C2: with a dead stream every attempt fails, the third
attempt's error is the result of `Synchronize`. -/
theorem c2_three_attempts_witness :
    (Synchronize c2Fetch c2Stream c2Volume).2.1 = Except.error "read needle 1: x" :=
  (c2_three_attempts_refetch_and_error c2Fetch c2Stream c2Volume).2.2
    { fetchResult := Except.ok c2Snap, ranCompact := false, tryRev := some 0,
      tryResult := some (Except.error "read needle 1: x") }
    "read needle 1: x" rfl rfl

/-- C3 counterexample: in the `c3Fetch` run, attempt 1 is a retry (attempt 0
failed) and its fetched compact revision (5) differs from the revision seen
on the previous attempt (0), yet `ranCompact = false`: no `Compact` /
`commitCompact` is run, refuting the claim as stated.  The cause is the
`lastCompactRevision != 0` conjunct of the guard in `volume_sync.go:57`. -/
theorem c3_compaction_counterexample :
    (Synchronize c3Fetch c3Stream c3Volume).2.2[0]? = some
      { fetchResult := Except.ok { map := [⟨1, 8, 4⟩], tailOffset := 0, compactRevision := 0 },
        ranCompact := false, tryRev := some 0,
        tryResult := some (Except.error "read needle 1: x") } ∧
    (Synchronize c3Fetch c3Stream c3Volume).2.2[1]? = some
      { fetchResult := Except.ok { map := [⟨1, 8, 4⟩], tailOffset := 0, compactRevision := 5 },
        ranCompact := false, tryRev := some 5,
        tryResult := some (Except.error "read needle 1: x") } :=
  ⟨rfl, rfl⟩

/-- C3 (amended): during `Synchronize` the first attempt never runs
compaction, and a retry attempt runs `Compact` followed by `commitCompact`
exactly when the compact revision it fetched differs from the revision seen
on the previous attempt AND that previous revision is nonzero. -/
theorem c3_compaction_condition
    (fetch : Nat → Except String SyncSnapshot)
    (stream : Nat → NeedleValue → Except String (List Nat)) (v : VolumeState) :
    (∀ rec, (Synchronize fetch stream v).2.2[0]? = some rec → rec.ranCompact = false) ∧
    (∀ j rec rec' r snap,
      (Synchronize fetch stream v).2.2[j]? = some rec →
      (Synchronize fetch stream v).2.2[j + 1]? = some rec' →
      rec.tryRev = some r →
      rec'.fetchResult = Except.ok snap →
      (rec'.ranCompact = true ↔ (r ≠ snap.compactRevision ∧ r ≠ 0))) := by
  constructor
  · intro rec h
    exact synchronizeAux_head_lastRevZero fetch stream 3 0 (Except.ok ()) v rec h
  · intro j rec rec' r snap h h' htr hfr
    have hrc := synchronizeAux_chain_ranCompact fetch stream 3 0 0 (Except.ok ()) v
      j rec rec' r snap h h' htr hfr
    rw [hrc]
    simp [Bool.and_eq_true, bne_iff_ne]

/-- Witness for C3 (amended): in the `c3FetchW` run the revision changes
from 3 (nonzero) to 5 between attempt 0 and attempt 1, and the amended
condition yields that attempt 1 did run the compaction. -/
theorem c3_compaction_condition_witness :
    c3RecW1.ranCompact = true ∧
    (Synchronize c3FetchW c3Stream c3Volume).2.2[0]? = some c3RecW0 ∧
    (Synchronize c3FetchW c3Stream c3Volume).2.2[1]? = some c3RecW1 :=
  ⟨((c3_compaction_condition c3FetchW c3Stream c3Volume).2 0 c3RecW0 c3RecW1 3
      { map := [⟨1, 8, 4⟩], tailOffset := 0, compactRevision := 5 }
      rfl rfl rfl rfl).mpr (by decide),
   rfl, rfl⟩

/-- C4: the delta built by `trySynchronizing` is sorted by offset ascending,
and (given that the reserved empty id 0 is live in neither index) its
entries are exactly the symmetric difference by needle id: each remote
entry whose key is absent locally appears as is (a fetch with the remote
offset and size), each local entry whose key is absent remotely appears
with its size set to 0 (a tombstone), keys present on both sides are
skipped. -/
theorem c4_delta_symmetric_difference (M S : NeedleMapModel)
    (hM0 : mapGet M NeedleIdEmpty = none) (hS0 : mapGet S NeedleIdEmpty = none) :
    List.Sorted ByOffsetLe (buildDelta M S) ∧
    ∀ nv, nv ∈ buildDelta M S ↔
      ((nv ∈ M ∧ mapGet S nv.Key = none) ∨
       (∃ nv0, nv0 ∈ S ∧ mapGet M nv0.Key = none ∧ nv = { nv0 with Size := 0 })) := by
  constructor
  · exact List.sorted_insertionSort ByOffsetLe _
  · intro nv
    rw [mem_buildDelta]
    constructor
    · rintro (⟨_, hget, hm⟩ | ⟨nv0, hs, _, hget, rfl⟩)
      · exact Or.inl ⟨hm, hget⟩
      · exact Or.inr ⟨nv0, hs, hget, rfl⟩
    · rintro (⟨hm, hget⟩ | ⟨nv0, hs, hget, rfl⟩)
      · refine Or.inl ⟨?_, hget, hm⟩
        intro hk
        rw [mapGet_eq_none_iff] at hM0
        exact hM0 nv hm hk
      · refine Or.inr ⟨nv0, hs, ?_, hget, rfl⟩
        intro hk
        rw [mapGet_eq_none_iff] at hS0
        exact hS0 nv0 hs hk

/-- Witness for C4: the remote-only entry `(1, 8, 4)` is in the delta of a
concrete pair of indexes. -/
theorem c4_delta_witness :
    NeedleValue.mk 1 8 4 ∈ buildDelta [⟨1, 8, 4⟩] [⟨2, 2, 5⟩] :=
  ((c4_delta_symmetric_difference [⟨1, 8, 4⟩] [⟨2, 2, 5⟩] (by decide) (by decide)).2
    ⟨1, 8, 4⟩).mpr (Or.inl ⟨by decide, by decide⟩)

/-- C5: processing one delta entry: a size-0 entry is deleted from the local
index and the loop continues; any other entry is requested from the remote
server with exactly `(volume id, needle id, offset, size, compact revision)`
and, when the stream succeeds, its bytes are appended at the tail (the
append returns byte offset `v.datLen`) and the index is updated with
`put(key, offset / 8, size)`. -/
theorem c5_delta_entry_processing (compactRevision : Nat)
    (stream : NeedleValue → Except String (List Nat))
    (nv : NeedleValue) (rest : List NeedleValue) (v : VolumeState) :
    (nv.Size = 0 →
      applyDelta compactRevision stream (nv :: rest) v =
        applyDelta compactRevision stream rest { v with nm := mapDelete v.nm nv.Key }) ∧
    (nv.Size ≠ 0 →
      (fetchNeedle v compactRevision nv (stream nv)).1 =
        { VolumdId := v.Id, Revision := compactRevision, Offset := nv.Offset,
          Size := nv.Size, NeedleId := nv.Key } ∧
      ∀ content, stream nv = Except.ok content →
        applyDelta compactRevision stream (nv :: rest) v =
          applyDelta compactRevision stream rest
            { v with datLen := v.datLen + content.length,
                     nm := mapSet v.nm nv.Key
                       ((appendBlob v content).1 / NeedlePaddingSize) nv.Size } ∧
        (appendBlob v content).1 = v.datLen) := by
  refine ⟨?_, ?_⟩
  · intro hsz
    simp only [applyDelta, if_pos hsz, removeNeedle]
  · intro hsz
    refine ⟨rfl, ?_⟩
    intro content hs
    refine ⟨?_, rfl⟩
    simp only [applyDelta, if_neg hsz, hs, fetchNeedle, appendBlob]

/-- Witness for C5: both branches evaluated on explicit entries. -/
theorem c5_delta_entry_witness :
    (applyDelta 9 (fun _ => Except.ok [1, 2, 3]) [⟨5, 24, 0⟩]
        { Id := 4, nm := [⟨5, 3, 6⟩], datLen := 16, compactRevision := 0 } =
      applyDelta 9 (fun _ => Except.ok [1, 2, 3]) []
        { Id := 4, nm := mapDelete [⟨5, 3, 6⟩] 5, datLen := 16, compactRevision := 0 }) ∧
    ((fetchNeedle { Id := 4, nm := [⟨5, 3, 6⟩], datLen := 16, compactRevision := 0 } 9
        ⟨6, 32, 4⟩ (Except.ok [1, 2, 3])).1 =
      { VolumdId := 4, Revision := 9, Offset := 32, Size := 4, NeedleId := 6 }) :=
  ⟨(c5_delta_entry_processing 9 (fun _ => Except.ok [1, 2, 3]) ⟨5, 24, 0⟩ []
      { Id := 4, nm := [⟨5, 3, 6⟩], datLen := 16, compactRevision := 0 }).1 (by decide),
   ((c5_delta_entry_processing 9 (fun _ => Except.ok [1, 2, 3]) ⟨6, 32, 4⟩ []
      { Id := 4, nm := [⟨5, 3, 6⟩], datLen := 16, compactRevision := 0 }).2 (by decide)).1⟩

/-- C6: a network failure while streaming one needle aborts the whole
attempt with the wrapped error: the volume state (hence the local index) is
returned unchanged, no entry after the failing one is processed, and
`fetchNeedle` itself leaves the state untouched, since `nm.Put` only runs
after the whole stream is received and the append succeeded. -/
theorem c6_fetch_failure_aborts (compactRevision : Nat)
    (stream : NeedleValue → Except String (List Nat))
    (nv : NeedleValue) (rest : List NeedleValue) (v : VolumeState) (e : String)
    (hsz : nv.Size ≠ 0) (hs : stream nv = Except.error e) :
    applyDelta compactRevision stream (nv :: rest) v =
      (v, Except.error ("read needle " ++ Nat.repr nv.Key ++ ": " ++ e)) ∧
    (fetchNeedle v compactRevision nv (stream nv)).2.1 = v := by
  constructor
  · simp only [applyDelta, if_neg hsz, hs, fetchNeedle]
  · rw [hs]
    rfl

/-- Witness for C6: one failing fetch on a concrete volume. -/
theorem c6_fetch_failure_witness :
    applyDelta 2 (fun _ => Except.error "boom") [⟨7, 8, 4⟩, ⟨9, 16, 4⟩]
        { Id := 1, nm := [], datLen := 8, compactRevision := 0 } =
      ({ Id := 1, nm := [], datLen := 8, compactRevision := 0 },
        Except.error "read needle 7: boom") :=
  (c6_fetch_failure_aborts 2 (fun _ => Except.error "boom") ⟨7, 8, 4⟩ [⟨9, 16, 4⟩]
    { Id := 1, nm := [], datLen := 8, compactRevision := 0 } "boom" (by decide) rfl).1

/-- C7: the remote snapshot map contains only live entries, and each index
record is stored in the map under its key exactly when its offset is
positive and its size is not the tombstone sentinel; any other record
leaves the key absent from the map. -/
theorem c7_remote_map_live_entries :
    (∀ (records : List IdxRecord) (nv : NeedleValue),
      nv ∈ fetchVolumeFileEntriesMap records →
      0 < nv.Offset ∧ nv.Size ≠ TombstoneFileSize) ∧
    (∀ (m : NeedleMapModel) (r : IdxRecord),
      mapGet (applyIdxRecord m r) r.key =
        if 0 < r.offset ∧ r.size ≠ TombstoneFileSize then
          some ⟨r.key, r.offset, r.size⟩
        else none) := by
  constructor
  · intro records nv h
    exact fetchVolumeFileEntriesMap_live_aux records [] (by intro x hx; cases hx) nv h
  · intro m r
    unfold applyIdxRecord
    by_cases hc : 0 < r.offset ∧ r.size ≠ TombstoneFileSize
    · rw [if_pos hc, if_pos hc, mapGet_mapSet, if_pos rfl]
    · rw [if_neg hc, if_neg hc, mapGet_mapDelete, if_pos rfl]

/-- Witness for C7: a concrete live record is in the built map and is live. -/
theorem c7_remote_map_witness :
    0 < (NeedleValue.mk 1 2 3).Offset ∧ (NeedleValue.mk 1 2 3).Size ≠ TombstoneFileSize :=
  c7_remote_map_live_entries.1 [⟨1, 2, 3⟩] ⟨1, 2, 3⟩ (by decide)

/-- C8: `NewMasterServer` creates the bounded leader channel with capacity
16; on the leader `proxyToLeader` runs the wrapped handler locally without
touching the channel; on a non-leader that knows a non-empty leader whose
URL parses, the request acquires a channel slot, is reverse-proxied to the
leader, and the slot is released afterwards. -/
theorem c8_proxy_to_leader
    (port : Nat) (metaFolder : String) (volumeSizeLimitMB : Nat) (preallocate : Bool)
    (pulseSeconds : Nat) (defaultReplicaPlacement : String)
    (leader : String) (parseOk : String → Bool)
    (hne : leader ≠ "") (hparse : parseOk leader = true) :
    (newMasterServer port metaFolder volumeSizeLimitMB preallocate pulseSeconds
        defaultReplicaPlacement).bounedLeaderChan = 16 ∧
    (∀ raftLeader parse2, proxyToLeader true raftLeader parse2 = [ProxyEvent.handleLocally]) ∧
    proxyToLeader false (some leader) parseOk =
      [ProxyEvent.acquireSlot, ProxyEvent.proxyRequest leader, ProxyEvent.releaseSlot] := by
  refine ⟨rfl, fun _ _ => rfl, ?_⟩
  simp [proxyToLeader, hne, hparse]

/-- Witness for C8: a concrete non-leader proxies through the channel. -/
theorem c8_proxy_to_leader_witness :
    proxyToLeader false (some "leader:9333") (fun _ => true) =
      [ProxyEvent.acquireSlot, ProxyEvent.proxyRequest "leader:9333",
        ProxyEvent.releaseSlot] :=
  (c8_proxy_to_leader 9333 "/tmp" 30000 false 5 "000" "leader:9333" (fun _ => true)
    (by decide) rfl).2.2

/-- C9: `runServer` terminates fatally during initialization exactly when the
configured volume size limit exceeds 256000 MB or the effective master meta
folder is not writable; otherwise it proceeds past these checks with that
meta folder. -/
theorem c9_run_server_init_checks (masterVolumeSizeLimitMB : Nat)
    (masterMetaFolder : String) (folders : List String) (folderWritable : String → Bool) :
    ((runServerInitChecks masterVolumeSizeLimitMB masterMetaFolder folders
        folderWritable).isFatal = true ↔
      (256000 < masterVolumeSizeLimitMB ∨
        folderWritable (effectiveMetaFolder masterMetaFolder folders) = false)) ∧
    (¬ 256000 < masterVolumeSizeLimitMB →
      folderWritable (effectiveMetaFolder masterMetaFolder folders) = true →
      runServerInitChecks masterVolumeSizeLimitMB masterMetaFolder folders folderWritable =
        InitCheckResult.proceed (effectiveMetaFolder masterMetaFolder folders)) := by
  constructor
  · unfold runServerInitChecks
    by_cases h1 : 256 * 1000 < masterVolumeSizeLimitMB
    · rw [if_pos h1]
      simp only [InitCheckResult.isFatal, true_iff]
      exact Or.inl (by omega)
    · rw [if_neg h1]
      by_cases h2 : folderWritable (effectiveMetaFolder masterMetaFolder folders) = true
      · rw [if_pos h2]
        simp only [InitCheckResult.isFatal]
        constructor
        · intro hf
          exact absurd hf (by simp)
        · rintro (ha | hb)
          · exact absurd ha (by omega)
          · rw [h2] at hb
            exact Bool.noConfusion hb
      · rw [if_neg h2]
        rw [Bool.not_eq_true] at h2
        simp only [InitCheckResult.isFatal, true_iff]
        exact Or.inr h2
  · intro h1 h2
    unfold runServerInitChecks
    rw [if_neg (by omega), if_pos h2]

/-- Witness for C9: a valid configuration proceeds, defaulting the meta
folder to the first data folder. -/
theorem c9_run_server_init_witness :
    runServerInitChecks 30000 "" ["/data1", "/data2"] (fun _ => true) =
      InitCheckResult.proceed "/data1" :=
  (c9_run_server_init_checks 30000 "" ["/data1", "/data2"] (fun _ => true)).2
    (by omega) rfl

/-- C10: on a non-leader master with no raft server, or with a raft server
that reports an empty leader, `proxyToLeader` produces no events at all:
the handler is not run, nothing is proxied, and no response is written. -/
theorem c10_unknown_leader_drops_request (parseOk : String → Bool) :
    proxyToLeader false none parseOk = [] ∧
    proxyToLeader false (some "") parseOk = [] :=
  ⟨rfl, by simp [proxyToLeader]⟩
